import Mathlib

/-!
Verification development for the omikuji_bot repository (Rust).

The embedding models `src/lib.rs` and `src/models.rs`: the conversational
submission state machine (session store keyed by the Telegram user id, the
draft type `OmikujiMessage`, the handlers `save`, `update_description`,
`update_section`, `class`, `section`, `new`, `vote`, `get_random_omikuji`,
and the dispatchers `message_entry` / `callback_entry`).

Modelling conventions:
* The chat transport (`Api`) only delivers replies; replies are modelled as
  an inductive `Reply` tag, one constructor per distinct message the code
  sends.
* The session store `HashMap<i64, OmikujiMessage>` is modelled as a function
  `Int → Option OmikujiMessage` with the three extension methods from
  `lib.rs` (`get_user_data`, `new_user_data`, `delete_user_data`).
* The MySQL table `omikujis` is modelled as a list of rows in ascending-id
  order (the canonical presentation of the table; the draw query's
  `ORDER BY id` is then the identity and `OFFSET x LIMIT 1` is `getElem?`).
  `diesel::insert` appends a row with the next auto-increment id and the
  schema's `vote_count` default 0.
* `serde_json` (de)serialization is modelled at the JSON-value level:
  `OmikujiMessage.toJson` / `OmikujiMessage.fromJson` follow the derived
  `Serialize` / `Deserialize` impls (struct → object keyed by field names,
  unit enum variant → its name as a string, `Option` → null-or-value,
  tuple → two-element array).  Printing/parsing that value as text is
  serde_json's own round-trip guarantee, external to this repository.
* Places where the Rust code can panic (`expect` on the insert,
  `data.as_bytes()[0]` on an empty string, `&payload[1..]` on a non
  character boundary) are modelled as explicit panic outcomes.
* `models.rs` in this snapshot declares `OmikujiMessage` with only two
  fields; `lib.rs` (the state machine, the authority for every claim
  below) constructs and consumes the four-field form
  `{ photo, class, description, sections }` (see `new_user_data`,
  `update_description`, `save`, `draw`), which is the form modelled here.
-/

namespace OmikujiBot

/-- The fortune classes of `src/models.rs` (`OmikujiClass`): twelve graded
blessings/curses plus the `Unknown` default ("indicating the class is not
selected"). -/
inductive OmikujiClass where
  | GreatBlessing
  | MiddleBlessing
  | SmallBlessing
  | Blessing
  | HalfBlessing
  | FutureBlessing
  | FutureSmallBlessing
  | Curse
  | SmallCurse
  | HalfCurse
  | FutureCurse
  | GreatCurse
  | Unknown
  deriving DecidableEq

/-- The section kinds of `src/models.rs` (`OmikujiSection`). -/
inductive OmikujiSection where
  | FortuneDirection
  | Desire
  | PersonWaitedFor
  | LostArticle
  | Travel
  | Business
  | Study
  | Dispute
  | Love
  | Illness
  | Other
  deriving DecidableEq

/-- Variant name, as produced both by `#[derive(Debug)]` (used for the inline
keyboard labels/payloads) and by the serde serialization of a unit variant. -/
def OmikujiClass.toName : OmikujiClass → String
  | .GreatBlessing => "GreatBlessing"
  | .MiddleBlessing => "MiddleBlessing"
  | .SmallBlessing => "SmallBlessing"
  | .Blessing => "Blessing"
  | .HalfBlessing => "HalfBlessing"
  | .FutureBlessing => "FutureBlessing"
  | .FutureSmallBlessing => "FutureSmallBlessing"
  | .Curse => "Curse"
  | .SmallCurse => "SmallCurse"
  | .HalfCurse => "HalfCurse"
  | .FutureCurse => "FutureCurse"
  | .GreatCurse => "GreatCurse"
  | .Unknown => "Unknown"

/-- Model of `OmikujiClass::from_str`, derived by `strum_macros::EnumString`: matches
the exact variant name, every variant included, anything else is an error. -/
def OmikujiClass.from_str (s : String) : Option OmikujiClass :=
  if s = "GreatBlessing" then some .GreatBlessing
  else if s = "MiddleBlessing" then some .MiddleBlessing
  else if s = "SmallBlessing" then some .SmallBlessing
  else if s = "Blessing" then some .Blessing
  else if s = "HalfBlessing" then some .HalfBlessing
  else if s = "FutureBlessing" then some .FutureBlessing
  else if s = "FutureSmallBlessing" then some .FutureSmallBlessing
  else if s = "Curse" then some .Curse
  else if s = "SmallCurse" then some .SmallCurse
  else if s = "HalfCurse" then some .HalfCurse
  else if s = "FutureCurse" then some .FutureCurse
  else if s = "GreatCurse" then some .GreatCurse
  else if s = "Unknown" then some .Unknown
  else none

/-- Variant name of a section kind (Debug / serde spelling). -/
def OmikujiSection.toName : OmikujiSection → String
  | .FortuneDirection => "FortuneDirection"
  | .Desire => "Desire"
  | .PersonWaitedFor => "PersonWaitedFor"
  | .LostArticle => "LostArticle"
  | .Travel => "Travel"
  | .Business => "Business"
  | .Study => "Study"
  | .Dispute => "Dispute"
  | .Love => "Love"
  | .Illness => "Illness"
  | .Other => "Other"

/-- Model of `OmikujiSection::from_str`, derived by `strum_macros::EnumString`. -/
def OmikujiSection.from_str (s : String) : Option OmikujiSection :=
  if s = "FortuneDirection" then some .FortuneDirection
  else if s = "Desire" then some .Desire
  else if s = "PersonWaitedFor" then some .PersonWaitedFor
  else if s = "LostArticle" then some .LostArticle
  else if s = "Travel" then some .Travel
  else if s = "Business" then some .Business
  else if s = "Study" then some .Study
  else if s = "Dispute" then some .Dispute
  else if s = "Love" then some .Love
  else if s = "Illness" then some .Illness
  else if s = "Other" then some .Other
  else none

/-- The in-progress draft, as constructed and consumed by `lib.rs`
(`new_user_data` initializes all four fields). -/
structure OmikujiMessage where
  photo : Option String
  «class» : Option OmikujiClass
  description : Option String
  sections : List (OmikujiSection × String)
  deriving DecidableEq

/-- JSON values, the target of the serde serialization model. -/
inductive Json where
  | null
  | str (s : String)
  | num (n : Int)
  | jsonBool (b : Bool)
  | arr (elems : List Json)
  | obj (fields : List (String × Json))

/-- Serde encoding of `Option<String>`. -/
def optStrJson : Option String → Json
  | none => .null
  | some s => .str s

/-- Serde encoding of one `(OmikujiSection, String)` tuple: a two-element
array. -/
def sectionToJson (kt : OmikujiSection × String) : Json :=
  .arr [.str kt.1.toName, .str kt.2]

/-- Serde serialization of the draft (`serde_json::to_string` in `save`,
modelled at the JSON-value level). -/
def OmikujiMessage.toJson (m : OmikujiMessage) : Json :=
  .obj [("photo", optStrJson m.photo),
        ("class", match m.«class» with
          | none => .null
          | some c => .str c.toName),
        ("description", optStrJson m.description),
        ("sections", .arr (m.sections.map sectionToJson))]

/-- Object field lookup (first occurrence wins, unknown fields ignored, as
serde does by default). -/
def Json.getField : Json → String → Option Json
  | .obj fields, k => fields.lookup k
  | _, _ => none

/-- Decode an `Option<String>` field. -/
def decodeOptStr : Json → Option (Option String)
  | .null => some none
  | .str s => some (some s)
  | _ => none

/-- Decode the `Option<OmikujiClass>` field; an unknown variant name is a
deserialization error. -/
def decodeOptClass : Json → Option (Option OmikujiClass)
  | .null => some none
  | .str s => (OmikujiClass.from_str s).map some
  | _ => none

/-- Decode one `(OmikujiSection, String)` tuple. -/
def decodeSection : Json → Option (OmikujiSection × String)
  | .arr [.str name, .str text] => (OmikujiSection.from_str name).map (fun k => (k, text))
  | _ => none

/-- Decode a list of section tuples, failing as soon as one element fails. -/
def decodeSectionList : List Json → Option (List (OmikujiSection × String))
  | [] => some []
  | j :: rest => do
    let kt ← decodeSection j
    let l ← decodeSectionList rest
    pure (kt :: l)

/-- Decode the `sections` vector. -/
def decodeSections : Json → Option (List (OmikujiSection × String))
  | .arr elems => decodeSectionList elems
  | _ => none

/-- Serde deserialization of the draft (`serde_json::from_str` in `draw`,
modelled at the JSON-value level; all four fields are required). -/
def OmikujiMessage.fromJson (j : Json) : Option OmikujiMessage := do
  let p ← decodeOptStr (← j.getField "photo")
  let c ← decodeOptClass (← j.getField "class")
  let d ← decodeOptStr (← j.getField "description")
  let s ← decodeSections (← j.getField "sections")
  pure ⟨p, c, d, s⟩

theorem OmikujiClass.from_str_class_name (c : OmikujiClass) :
    OmikujiClass.from_str c.toName = some c := by
  cases c <;> rfl

theorem OmikujiSection.from_str_section_name (k : OmikujiSection) :
    OmikujiSection.from_str k.toName = some k := by
  cases k <;> rfl

theorem decodeSection_sectionToJson (kt : OmikujiSection × String) :
    decodeSection (sectionToJson kt) = some kt := by
  obtain ⟨k, t⟩ := kt
  simp [sectionToJson, decodeSection, OmikujiSection.from_str_section_name]

theorem decodeSections_map (l : List (OmikujiSection × String)) :
    decodeSections (.arr (l.map sectionToJson)) = some l := by
  induction l with
  | nil => rfl
  | cons kt rest ih =>
    simp only [decodeSections, List.map_cons, decodeSectionList,
      decodeSection_sectionToJson] at *
    simp [ih]

/-- Serialize-then-deserialize is the identity on drafts. -/
theorem OmikujiMessage.fromJson_toJson (m : OmikujiMessage) :
    OmikujiMessage.fromJson m.toJson = some m := by
  obtain ⟨p, c, d, s⟩ := m
  cases p <;> cases c <;> cases d <;>
    simp [OmikujiMessage.toJson, OmikujiMessage.fromJson, Json.getField,
      List.lookup, optStrJson, decodeOptStr, decodeOptClass,
      OmikujiClass.from_str_class_name, decodeSections_map, bind]

/-- A row of the `omikujis` table (`src/models.rs` `Omikuji`); the columns
not read by any handler (`photo`, the timestamps) are omitted. -/
structure Omikuji where
  id : Nat
  message : Json
  vote_count : Int
  tg_id : Int
  tg_name : String

/-- The `omikujis` table: rows in ascending-id order plus the auto-increment
counter. -/
structure OmikujiTable where
  rows : List Omikuji
  nextId : Nat

/-- Model of `new_omikuji` (lib.rs): builds a `NewOmikuji { message, tg_id, tg_name }`
and inserts it; the database assigns the next id and the schema default
`vote_count = 0`.  The `.expect("Failed to insert!")` panic on a store
failure is modelled at the call sites via an `insertOk` flag. -/
def new_omikuji (msg : Json) (uid : Int) (uname : String) (db : OmikujiTable) : OmikujiTable :=
  { rows := db.rows ++ [⟨db.nextId, msg, 0, uid, uname⟩], nextId := db.nextId + 1 }

/-- The draw eligibility filter `vote_count.gt(-3)`. -/
def eligibleRows (rows : List Omikuji) : List Omikuji :=
  rows.filter (fun o => -3 < o.vote_count)

/-- Model of `get_random_omikuji` (lib.rs): counts the rows with `vote_count > -3`;
when zero returns `None`, otherwise selects the eligible row at offset `x`
in ascending-id order.  `x` is the value produced by
`thread_rng().gen_range(0, count)`, an external oracle whose contract is
`0 ≤ x < count`; it is passed as a parameter. -/
def get_random_omikuji (db : OmikujiTable) (x : Nat) : Option Omikuji :=
  let count := (eligibleRows db.rows).length
  if count = 0 then none
  else (eligibleRows db.rows)[x]?

--
-- Byte-level model of the vote payload handling
--

/-- UTF-8 encoding of one character. -/
def utf8Bytes (c : Char) : List Nat :=
  let n := c.toNat
  if n < 128 then [n]
  else if n < 2048 then [192 + n / 64, 128 + n % 64]
  else if n < 65536 then [224 + n / 4096, 128 + (n / 64) % 64, 128 + n % 64]
  else [240 + n / 262144, 128 + (n / 4096) % 64, 128 + (n / 64) % 64, 128 + n % 64]

/-- The UTF-8 bytes of a string (`str::as_bytes`). -/
def strBytes (s : String) : List Nat :=
  s.toList.flatMap utf8Bytes

/-- Decimal digit accumulation used by `u32::from_str`; `none` once a
non-digit is seen. -/
def parseDigitsAcc (acc : Option Nat) : List Nat → Option Nat
  | [] => acc
  | b :: rest =>
    parseDigitsAcc
      (match acc with
       | none => none
       | some n => if 48 ≤ b ∧ b ≤ 57 then some (n * 10 + (b - 48)) else none)
      rest

/-- Model of `str::parse::<u32>`: one optional leading `'+'`, then at least one
decimal digit, and the value must fit in 32 bits (otherwise an overflow
error). -/
def parse_u32 (bs : List Nat) : Option Nat :=
  let ds := match bs with
    | 43 :: rest => rest
    | _ => bs
  match ds with
  | [] => none
  | _ =>
    match parseDigitsAcc (some 0) ds with
    | some n => if n < 2 ^ 32 then some n else none
    | none => none

/-- Outcome of the `vote` handler. -/
inductive VoteOutcome where
  | malformed
  | notFound
  | voted (slipId : Nat) (isUpvote : Bool)
  | panicBoundary
  deriving DecidableEq

/-- Model of `vote` (lib.rs): rejects payloads of byte length ≤ 1, slices off the
first byte (`&payload[1..]` — a panic when byte 1 is a UTF-8 continuation
byte, i.e. not a character boundary), parses the rest as `u32`, resolves
the slip by id (`limit 1`: first matching row), and on success rewrites
`vote_count` to the found row's count plus `+1` when the first byte is
`b'+'` and `-1` otherwise; no check that the first byte is a sign. -/
def vote (db : OmikujiTable) (payload : List Nat) : OmikujiTable × VoteOutcome :=
  match payload with
  | b0 :: b1 :: rest =>
    if 128 ≤ b1 ∧ b1 < 192 then (db, .panicBoundary)
    else
      match parse_u32 (b1 :: rest) with
      | none => (db, .malformed)
      | some omikuji_id =>
        match db.rows.find? (fun o => o.id = omikuji_id) with
        | none => (db, .notFound)
        | some o =>
          let is_upvote := b0 == 43
          ({ db with
             rows := db.rows.map (fun r =>
               if r.id = omikuji_id then
                 { r with vote_count := o.vote_count + (if is_upvote then 1 else -1) }
               else r) },
           .voted omikuji_id is_upvote)
  | _ => (db, .malformed)

--
-- Session store and replies
--

/-- The session store `HashMap<i64, OmikujiMessage>`. -/
abbrev Store := Int → Option OmikujiMessage

def emptyStore : Store := fun _ => none

/-- Model of `get_user_data` (HashMapExtension). -/
def Store.get_user_data (store : Store) (uid : Int) : Option OmikujiMessage :=
  store uid

/-- The empty draft inserted by `new_user_data`. -/
def emptyMessage : OmikujiMessage :=
  { photo := none, «class» := none, description := none, sections := [] }

/-- Model of `new_user_data` (HashMapExtension). -/
def Store.new_user_data (store : Store) (uid : Int) : Store :=
  fun k => if k = uid then some emptyMessage else store k

/-- In-place mutation of the draft held for `uid` (the `&mut` updates). -/
def Store.update (store : Store) (uid : Int) (m : OmikujiMessage) : Store :=
  fun k => if k = uid then some m else store k

/-- Model of `delete_user_data` (HashMapExtension). -/
def Store.delete_user_data (store : Store) (uid : Int) : Store :=
  fun k => if k = uid then none else store k

/-- One tag per distinct reply the handlers send. -/
inductive Reply where
  | welcome
  | startMenu
  | commandNotRecognized
  | currentShown (m : OmikujiMessage)
  | noCurrent
  | cancelled
  | aboutText
  | debugShown (m : OmikujiMessage)
  | debugEmpty
  | askFirstSection
  | selectSectionFirst
  | addOrSave
  | mustFinishPrevious
  | selectClassMenu
  | drawResult (m : OmikujiMessage) (slipId : Nat)
  | libraryEmpty
  | classAlreadySet
  | classPrompt
  | malformedCallback
  | noStripForClass
  | noStripForSection
  | chooseClassFirst
  | enterDescriptionFirst
  | finishPreviousSection
  | sectionPrompt (k : OmikujiSection)
  | askPhoto
  | savedOk
  | incompleteStrip
  | voteSuccess (isUpvote : Bool)
  | voteNotFound
  | malformedImage
  | unsupportedMessage
  | emptyCallback
  | callbackNotRecognized
  deriving DecidableEq

--
-- Handlers (lib.rs, "Functions for different actions")
--

/-- Model of `update_description` (lib.rs): when the user holds a draft whose
description is still `None`, any freeform text is captured verbatim as the
description (the draft's class is not consulted).  `some reply` models
`Ok(true)`, `none` models `Ok(false)`. -/
def update_description (store : Store) (uid : Int) (payload : String) :
    Store × Option Reply :=
  match store.get_user_data uid with
  | some m =>
    match m.description with
    | none => (store.update uid { m with description := some payload }, some .askFirstSection)
    | some _ => (store, none)
  | none => (store, none)

/-- Model of `update_section` (lib.rs): fills the last-appended section's text when it
is still empty; with no sections, or a last section that already has text,
replies "You will need to select a section type before entering any
description!" without mutating; `none` models `Ok(false)` (no draft). -/
def update_section (store : Store) (uid : Int) (payload : String) :
    Store × Option Reply :=
  match store.get_user_data uid with
  | none => (store, none)
  | some m =>
    match m.sections.getLast? with
    | none => (store, some .selectSectionFirst)
    | some (k, t) =>
      if t = "" then
        (store.update uid { m with sections := m.sections.dropLast ++ [(k, payload)] },
         some .addOrSave)
      else (store, some .selectSectionFirst)

/-- Model of `new` (lib.rs): creates an empty draft unless one already exists. -/
def new (store : Store) (uid : Int) : Store × Reply :=
  match store.get_user_data uid with
  | some _ => (store, .mustFinishPrevious)
  | none => (store.new_user_data uid, .selectClassMenu)

/-- Model of `class` (lib.rs): sets the draft's class from the callback payload via
`OmikujiClass::from_str` when the draft exists and no class is set yet. -/
def «class» (store : Store) (uid : Int) (payload : String) : Store × Reply :=
  match store.get_user_data uid with
  | none => (store, .noStripForClass)
  | some m =>
    match m.«class» with
    | some _ => (store, .classAlreadySet)
    | none =>
      match OmikujiClass.from_str payload with
      | some c => (store.update uid { m with «class» := some c }, .classPrompt)
      | none => (store, .malformedCallback)

/-- Model of `section` (lib.rs): appends `(kind, "")` when a draft exists, its class
and description are set, and the previously appended section (if any) has
non-empty text. -/
def «section» (store : Store) (uid : Int) (payload : String) : Store × Reply :=
  match store.get_user_data uid with
  | none => (store, .noStripForSection)
  | some m =>
    if m.«class» = none then (store, .chooseClassFirst)
    else if m.description = none then (store, .enterDescriptionFirst)
    else
      match m.sections.getLast? with
      | some (_, t) =>
        if t = "" then (store, .finishPreviousSection)
        else
          match OmikujiSection.from_str payload with
          | some k =>
            (store.update uid { m with sections := m.sections ++ [(k, "")] },
             .sectionPrompt k)
          | none => (store, .malformedCallback)
      | none =>
        match OmikujiSection.from_str payload with
        | some k =>
          (store.update uid { m with sections := m.sections ++ [(k, "")] },
           .sectionPrompt k)
        | none => (store, .malformedCallback)

/-- Outcome of the `save` handler. -/
inductive SaveOutcome where
  | committed
  | rejected
  | panicked
  deriving DecidableEq

/-- Result of the `save` handler. -/
structure SaveResult where
  store : Store
  db : OmikujiTable
  outcome : SaveOutcome

/-- Model of `save` (lib.rs): when the user holds a draft with at least one section
whose last section has non-empty text, the draft's photo field is
overwritten with the photo argument, the draft is serialized and inserted
via `new_omikuji`, and the session entry is deleted; in every other case a
rejection reply is sent and nothing changes.  `insertOk = false` models the
store insert failing, at which point `new_omikuji`'s
`.expect("Failed to insert!")` panics — after the photo field has already
been mutated and before the session entry is deleted.  (Serialization of
this draft type via `serde_json::to_string` cannot fail, so the `?` on it
never fires.) -/
def save (store : Store) (uid : Int) (uname : String) (db : OmikujiTable)
    (photo : Option String) (insertOk : Bool) : SaveResult :=
  match store.get_user_data uid with
  | some m =>
    match m.sections.getLast? with
    | some (_, t) =>
      if t ≠ "" then
        let m' := { m with photo := photo }
        if insertOk then
          { store := (store.update uid m').delete_user_data uid,
            db := new_omikuji m'.toJson uid uname db,
            outcome := .committed }
        else
          { store := store.update uid m', db := db, outcome := .panicked }
      else { store := store, db := db, outcome := .rejected }
    | none => { store := store, db := db, outcome := .rejected }
  | none => { store := store, db := db, outcome := .rejected }

/-- Model of `draw` (lib.rs): draws a random eligible slip; deserialization failure of
the stored blob propagates as an error result (`?`). -/
inductive DrawOutcome where
  | reply (r : Reply)
  | errorResult

def draw (db : OmikujiTable) (rng : Nat) : DrawOutcome :=
  match get_random_omikuji db rng with
  | none => .reply .libraryEmpty
  | some o =>
    match OmikujiMessage.fromJson o.message with
    | none => .errorResult
    | some m => .reply (.drawResult m o.id)

--
-- Dispatchers (message_entry / callback_entry)
--

/-- The message kinds `message_entry` distinguishes; a photo message carries
the file ids of its `Vec<PhotoSize>`. -/
inductive MessageKind where
  | text (data : String)
  | photo (fileIds : List String)
  | other

/-- Outcome of one dispatched event. -/
inductive StepOutcome where
  | reply (r : Reply)
  | errorResult
  | panic
  deriving DecidableEq

/-- State touched by the dispatchers: the session store and the slip table. -/
structure BotState where
  store : Store
  db : OmikujiTable

/-- Model of `message_entry` (lib.rs).  The command check `data.as_bytes()[0] == b'/'`
reads byte 0: on the empty string this is an out-of-bounds index (panic);
otherwise byte 0 equals `b'/'` exactly when the first character is `'/'`
(UTF-8 leading bytes of non-ASCII characters are ≥ 0x80). -/
def message_entry (s : BotState) (uid : Int) (uname : String) (insertOk : Bool) :
    MessageKind → BotState × StepOutcome
  | .text data =>
    match data.toList.head? with
    | none => (s, .panic)
    | some c =>
      if c = '/' then
        if data = "/start" then (s, .reply .startMenu)
        else if data = "/current" then
          match s.store.get_user_data uid with
          | some m => (s, .reply (.currentShown m))
          | none => (s, .reply .noCurrent)
        else if data = "/cancel" then
          ({ s with store := s.store.delete_user_data uid }, .reply .cancelled)
        else if data = "/about" then (s, .reply .aboutText)
        else if data = "/debug" then
          match s.store.get_user_data uid with
          | some m => (s, .reply (.debugShown m))
          | none => (s, .reply .debugEmpty)
        else (s, .reply .commandNotRecognized)
      else
        match update_description s.store uid data with
        | (store', some r) => ({ s with store := store' }, .reply r)
        | (_, none) =>
          match update_section s.store uid data with
          | (store', some r) => ({ s with store := store' }, .reply r)
          | (_, none) => (s, .reply .welcome)
  | .photo fileIds =>
    match fileIds.head? with
    | none => (s, .reply .malformedImage)
    | some fid =>
      match save s.store uid uname s.db (some fid) insertOk with
      | ⟨store', db', .committed⟩ => (⟨store', db'⟩, .reply .savedOk)
      | ⟨store', db', .rejected⟩ => (⟨store', db'⟩, .reply .incompleteStrip)
      | ⟨store', db', .panicked⟩ => (⟨store', db'⟩, .panic)
  | .other => (s, .reply .unsupportedMessage)

/-- Model of `command.split('/')` of `callback_entry`, at the character level
(`split` on one character never returns an empty list). -/
def splitSlash (cs : List Char) : List (List Char) :=
  match cs with
  | [] => [[]]
  | c :: rest =>
    let r := splitSlash rest
    if c = '/' then [] :: r
    else
      match r with
      | [] => [[c]]
      | g :: gs => (c :: g) :: gs

/-- The command dispatch of `callback_entry` (lib.rs), after the
command/payload split. -/
def callback_dispatch (s : BotState) (uid : Int) (uname : String) (insertOk : Bool)
    (rng : Nat) (command payload : String) : BotState × StepOutcome :=
  if command = "new" then
    match new s.store uid with
    | (store', r) => ({ s with store := store' }, .reply r)
  else if command = "draw" then
    match draw s.db rng with
    | .reply r => (s, .reply r)
    | .errorResult => (s, .errorResult)
  else if command = "class" then
    match «class» s.store uid payload with
    | (store', r) => ({ s with store := store' }, .reply r)
  else if command = "section" then
    match «section» s.store uid payload with
    | (store', r) => ({ s with store := store' }, .reply r)
  else if command = "ask_photo" then (s, .reply .askPhoto)
  else if command = "save" then
    match save s.store uid uname s.db none insertOk with
    | ⟨store', db', .committed⟩ => (⟨store', db'⟩, .reply .savedOk)
    | ⟨store', db', .rejected⟩ => (⟨store', db'⟩, .reply .incompleteStrip)
    | ⟨store', db', .panicked⟩ => (⟨store', db'⟩, .panic)
  else if command = "vote" then
    match vote s.db (strBytes payload) with
    | (db', .malformed) => ({ s with db := db' }, .reply .malformedCallback)
    | (db', .notFound) => ({ s with db := db' }, .reply .voteNotFound)
    | (db', .voted _ up) => ({ s with db := db' }, .reply (.voteSuccess up))
    | (db', .panicBoundary) => ({ s with db := db' }, .panic)
  else (s, .reply .callbackNotRecognized)

/-- Model of `callback_entry` (lib.rs): splits the query data on `'/'` into the
command (first piece) and the payload (second piece, `""` when absent),
then dispatches. -/
def callback_entry (s : BotState) (uid : Int) (uname : String) (insertOk : Bool)
    (rng : Nat) (data : Option String) : BotState × StepOutcome :=
  match data with
  | none => (s, .reply .emptyCallback)
  | some q =>
    callback_dispatch s uid uname insertOk rng
      (String.mk ((splitSlash q.toList).headD []))
      (String.mk (((splitSlash q.toList).drop 1).headD []))

/-- One inbound transport event, together with the environment choices it is
processed under (whether a store insert would succeed, and the rng draw). -/
inductive Event where
  | message (kind : MessageKind) (insertOk : Bool)
  | callback (data : Option String) (insertOk : Bool) (rng : Nat)

/-- Dispatch one event. -/
def stepEvent (uid : Int) (uname : String) (s : BotState) : Event → BotState × StepOutcome
  | .message kind insertOk => message_entry s uid uname insertOk kind
  | .callback data insertOk rng => callback_entry s uid uname insertOk rng data

/-- The bot state after processing a sequence of events for one identity,
starting from an empty session store and an empty slip table.  (Every
handler touches only the acting identity's session entry, so a single
identity suffices for the per-identity claims.) -/
def run (uid : Int) (uname : String) (events : List Event) : BotState :=
  events.foldl (fun s e => (stepEvent uid uname s e).1) ⟨emptyStore, ⟨[], 1⟩⟩

--
-- Claim theorems
--

/-- Shared unfolding of `save`'s commit branch. -/
theorem save_commit_eq (store : Store) (uid : Int) (uname : String)
    (db : OmikujiTable) (photo : Option String) (m : OmikujiMessage)
    (l : List (OmikujiSection × String)) (k : OmikujiSection) (t : String)
    (hm : store uid = some m) (hsec : m.sections = l ++ [(k, t)]) (ht : t ≠ "") :
    save store uid uname db photo true =
      { store := (store.update uid { m with photo := photo }).delete_user_data uid,
        db := new_omikuji (OmikujiMessage.toJson { m with photo := photo }) uid uname db,
        outcome := .committed } := by
  simp [save, Store.get_user_data, hm, hsec, List.getLast?_concat, ht]

/-- C1: `save` commits exactly when the acting identity holds a draft whose
sections list is non-empty and whose last section has non-empty text; on
commit it serializes the draft (with the commit-time photo), appends it to
the slip table authored by that identity, and deletes that identity's
session entry (all other entries untouched, as the resulting store
expression shows); in every other case — no draft, zero sections, or empty
last-section text — it replies with the rejection, inserts nothing, and
leaves the session store unchanged. -/
theorem save_commit_iff (store : Store) (uid : Int) (uname : String)
    (db : OmikujiTable) (photo : Option String) :
    (∀ m l k t, store uid = some m → m.sections = l ++ [(k, t)] → t ≠ "" →
        save store uid uname db photo true =
          { store := (store.update uid { m with photo := photo }).delete_user_data uid,
            db := new_omikuji (OmikujiMessage.toJson { m with photo := photo }) uid uname db,
            outcome := .committed }) ∧
    (∀ m, store uid = some m → (m.sections = [] ∨ ∃ l k, m.sections = l ++ [(k, "")]) →
        save store uid uname db photo true = ⟨store, db, .rejected⟩) ∧
    (store uid = none → save store uid uname db photo true = ⟨store, db, .rejected⟩) := by
  refine ⟨?_, ?_, ?_⟩
  · intro m l k t hm hsec ht
    exact save_commit_eq store uid uname db photo m l k t hm hsec ht
  · intro m hm hcases
    rcases hcases with hnil | ⟨l, k, hlast⟩
    · simp [save, Store.get_user_data, hm, hnil]
    · simp [save, Store.get_user_data, hm, hlast, List.getLast?_concat]
  · intro hm
    simp [save, Store.get_user_data, hm]

def c1Draft : OmikujiMessage :=
  ⟨none, some .GreatBlessing, some "good fortune", [(.Travel, "safe journeys")]⟩

def c1Store : Store := emptyStore.update 1 c1Draft

/-- Witness for C1: a concrete commit-ready draft commits, deleting the
session entry and appending one row. -/
theorem save_commit_iff_witness :
    (save c1Store 1 "alice" ⟨[], 1⟩ none true).outcome = .committed ∧
    (save c1Store 1 "alice" ⟨[], 1⟩ none true).store 1 = none ∧
    (save c1Store 1 "alice" ⟨[], 1⟩ none true).db.rows.length = 1 := by
  have h := (save_commit_iff c1Store 1 "alice" ⟨[], 1⟩ none).1 c1Draft []
    OmikujiSection.Travel "safe journeys" rfl rfl (by decide)
  exact ⟨by rw [h], by rw [h]; rfl, by rw [h]; rfl⟩

/-- C3: a draft that reaches commit with class `C`, description `D`, sections
`[(K1,T1),(K2,T2)]` and photo `P` is stored as one new row whose serialized
message decodes back to exactly that record. -/
theorem commit_roundtrip (store : Store) (uid : Int) (uname : String)
    (db : OmikujiTable) (P : Option String) (C : OmikujiClass) (D : String)
    (K1 K2 : OmikujiSection) (T1 T2 : String)
    (hm : store uid = some ⟨none, some C, some D, [(K1, T1), (K2, T2)]⟩)
    (hT2 : T2 ≠ "") :
    ∃ row, (save store uid uname db P true).db.rows = db.rows ++ [row] ∧
      OmikujiMessage.fromJson row.message =
        some ⟨P, some C, some D, [(K1, T1), (K2, T2)]⟩ ∧
      row.tg_id = uid ∧ row.tg_name = uname := by
  have h := save_commit_eq store uid uname db P _ [(K1, T1)] K2 T2 hm rfl hT2
  refine ⟨⟨db.nextId,
    OmikujiMessage.toJson ⟨P, some C, some D, [(K1, T1), (K2, T2)]⟩, 0, uid, uname⟩,
    ?_, ?_, rfl, rfl⟩
  · rw [h]; rfl
  · exact OmikujiMessage.fromJson_toJson _

def c3Store : Store :=
  emptyStore.update 1 ⟨none, some .Curse, some "oh no", [(.Love, "bad"), (.Study, "ok")]⟩

/-- Witness for C3: concrete round trip through a committed slip. -/
theorem commit_roundtrip_witness :
    ∃ row, (save c3Store 1 "bob" ⟨[], 1⟩ (some "pic") true).db.rows = [] ++ [row] ∧
      OmikujiMessage.fromJson row.message =
        some ⟨some "pic", some .Curse, some "oh no", [(.Love, "bad"), (.Study, "ok")]⟩ ∧
      row.tg_id = 1 ∧ row.tg_name = "bob" :=
  commit_roundtrip c3Store 1 "bob" ⟨[], 1⟩ (some "pic") .Curse "oh no"
    .Love .Study "bad" "ok" rfl (by decide)

/-- C9 (amended): when the durable-store insert fails during commit, the code
panics (`expect("Failed to insert!")`) instead of returning an error result,
and at that point the draft's photo field has already been overwritten with
the commit-time photo (the slip table itself is unchanged). -/
theorem insert_failure_behavior (store : Store) (uid : Int) (uname : String)
    (db : OmikujiTable) (photo : Option String) (m : OmikujiMessage)
    (l : List (OmikujiSection × String)) (k : OmikujiSection) (t : String)
    (hm : store uid = some m) (hsec : m.sections = l ++ [(k, t)]) (ht : t ≠ "") :
    save store uid uname db photo false =
      { store := store.update uid { m with photo := photo }, db := db,
        outcome := .panicked } := by
  simp [save, Store.get_user_data, hm, hsec, List.getLast?_concat, ht]

def c9Draft : OmikujiMessage := ⟨none, some .Blessing, some "d", [(.Travel, "t")]⟩

def c9Store : Store := emptyStore.update 1 c9Draft

/-- Witness for C9's amended statement, at a concrete commit-ready draft. -/
theorem insert_failure_behavior_witness :
    save c9Store 1 "u" ⟨[], 1⟩ (some "pic") false =
      { store := c9Store.update 1 { c9Draft with photo := some "pic" },
        db := ⟨[], 1⟩, outcome := .panicked } :=
  insert_failure_behavior c9Store 1 "u" ⟨[], 1⟩ (some "pic") c9Draft []
    .Travel "t" rfl rfl (by decide)

/-- C9 counterexample: with a failing insert the outcome is a panic, not an
error result, and the session draft is not left unchanged — its photo field
now holds the commit-time photo. -/
theorem insert_failure_not_all_or_nothing :
    (save c9Store 1 "u" ⟨[], 1⟩ (some "pic") false).outcome = .panicked ∧
    (save c9Store 1 "u" ⟨[], 1⟩ (some "pic") false).store 1 =
      some { c9Draft with photo := some "pic" } ∧
    some { c9Draft with photo := some "pic" } ≠ some c9Draft := by
  refine ⟨rfl, rfl, by decide⟩

def c4Slip : Omikuji := ⟨7, Json.null, 0, 0, ""⟩

def c4Db : OmikujiTable := ⟨[c4Slip], 8⟩

/-- C4: the vote handler never validates the sign character.  The payload
`"*7"` — whose first character is neither `'+'` nor `'-'` — is not rejected
as malformed: with slip 7 present it is treated as a downvote and mutates
the score to `-1`.  Moreover the payload `"é7"` makes `&payload[1..]` slice
inside a UTF-8 character, a panic rather than a malformed-request reply. -/
theorem vote_sign_unchecked :
    (vote c4Db (strBytes "*7")).2 = .voted 7 false ∧
    ((vote c4Db (strBytes "*7")).1.rows.map (fun o => o.vote_count)) = [-1] ∧
    (vote c4Db (strBytes "é7")).2 = .panicBoundary := by
  exact ⟨rfl, rfl, rfl⟩

def c6Events : List Event :=
  [ .callback (some "new") true 0,
    .callback (some "class/Unknown") true 0,
    .message (.text "my description") true,
    .callback (some "section/Travel") true 0,
    .message (.text "travel text") true,
    .callback (some "save") true 0 ]

/-- C6: the sentinel class is persistable.  `OmikujiClass::from_str` accepts
the name `"Unknown"` (strum derives every variant, and the inline keyboard
built by `to_keyboard` even offers it), so choosing `class/Unknown` and
completing the draft commits a slip whose serialized message decodes to
class `Unknown`. -/
theorem unknown_class_persisted :
    OmikujiClass.from_str "Unknown" = some .Unknown ∧
    ((run 1 "u" c6Events).db.rows.map
      (fun o => (OmikujiMessage.fromJson o.message).map (fun m => m.«class»))) =
      [some (some .Unknown)] := by
  exact ⟨rfl, rfl⟩

/-- C7 counterexample: after "start new" followed by a freeform text, the
reachable draft has `class = none` yet `description = some "hi"` — a draft
with an unset class is not necessarily empty. -/
theorem class_none_description_set :
    (run 1 "u" [.callback (some "new") true 0, .message (.text "hi") true]).store 1 =
      some ⟨none, none, some "hi", []⟩ ∧
    (some "hi" : Option String) ≠ none := by
  exact ⟨rfl, by decide⟩

def c8Draft : OmikujiMessage :=
  ⟨none, some .GreatBlessing, some "d", [(.Travel, "safe journeys")]⟩

def c8State : BotState := ⟨emptyStore.update 1 c8Draft, ⟨[], 1⟩⟩

/-- C8 counterexample: with the last-appended section already filled, a
freeform text is answered with the "select a section type before entering
any description" rejection, not the default "type /start to begin" welcome
(the draft is indeed not mutated). -/
theorem filled_section_text_not_welcome :
    (message_entry c8State 1 "u" true (.text "extra")).2 =
      .reply .selectSectionFirst ∧
    Reply.selectSectionFirst ≠ Reply.welcome ∧
    (message_entry c8State 1 "u" true (.text "extra")).1.store 1 = some c8Draft := by
  exact ⟨rfl, by decide, rfl⟩

/-- C8 (amended): for a draft whose last-appended section already has
non-empty text, a freeform (non-command, non-empty) text action does not
mutate any state and is answered with the `selectSectionFirst` rejection
("You will need to select a section type before entering any
description!"), not the default welcome. -/
theorem filled_section_text_no_mutation (s : BotState) (uid : Int) (uname : String)
    (insertOk : Bool) (data : String) (m : OmikujiMessage) (c : Char)
    (l : List (OmikujiSection × String)) (k : OmikujiSection) (t : String)
    (hc : data.toList.head? = some c) (hslash : c ≠ '/')
    (hm : s.store uid = some m) (hdesc : m.description ≠ none)
    (hsec : m.sections = l ++ [(k, t)]) (ht : t ≠ "") :
    message_entry s uid uname insertOk (.text data) = (s, .reply .selectSectionFirst) := by
  obtain ⟨d, hd⟩ : ∃ d, m.description = some d := by
    cases hmd : m.description with
    | none => exact absurd hmd hdesc
    | some d => exact ⟨d, rfl⟩
  have hc' : data.data.head? = some c := hc
  simp [message_entry, hc', hslash, update_description, update_section,
    Store.get_user_data, hm, hd, hsec, List.getLast?_concat, ht]

/-- Witness for C8's amended statement. -/
theorem filled_section_text_no_mutation_witness :
    message_entry c8State 1 "u" true (.text "extra") =
      (c8State, .reply .selectSectionFirst) :=
  filled_section_text_no_mutation c8State 1 "u" true "extra" c8Draft 'e'
    [] .Travel "safe journeys" rfl (by decide) rfl (by decide) rfl (by decide)

/-- C10 counterexample: the empty text message makes
`data.as_bytes()[0]` an out-of-bounds access — `message_entry` panics
instead of producing a user-facing response. -/
theorem empty_text_panics :
    (message_entry ⟨emptyStore, ⟨[], 1⟩⟩ 1 "u" true (.text "")).2 = .panic := by
  exact rfl

/-- C10 (amended): every non-empty text message is handled totally — the
text path always produces a user-facing reply, never a panic or an error
result. -/
theorem nonempty_text_total (s : BotState) (uid : Int) (uname : String)
    (insertOk : Bool) (data : String) (hne : data ≠ "") :
    ∃ r, (message_entry s uid uname insertOk (.text data)).2 = .reply r := by
  obtain ⟨c, cs, hl⟩ : ∃ c cs, data.toList = c :: cs := by
    cases h : data.toList with
    | nil =>
      exact absurd (by cases data with | mk l => cases l with
        | nil => rfl
        | cons x xs => simp [String.toList] at h) hne
    | cons c cs => exact ⟨c, cs, rfl⟩
  have hh : data.toList.head? = some c := by rw [hl]; rfl
  simp only [message_entry, hh]
  by_cases hcs : c = '/'
  · simp only [hcs, if_true]
    split_ifs <;> first
      | exact ⟨_, rfl⟩
      | (split <;> exact ⟨_, rfl⟩)
  · simp only [hcs, if_false]
    rcases h1 : update_description s.store uid data with ⟨st1, r1⟩
    cases r1 with
    | some r => exact ⟨r, rfl⟩
    | none =>
      rcases h2 : update_section s.store uid data with ⟨st2, r2⟩
      cases r2 with
      | some r => exact ⟨r, rfl⟩
      | none => exact ⟨.welcome, rfl⟩

/-- Witness for C10's amended statement. -/
theorem nonempty_text_total_witness :
    ∃ r, (message_entry ⟨emptyStore, ⟨[], 1⟩⟩ 1 "u" true (.text "hello")).2 =
      .reply r :=
  nonempty_text_total ⟨emptyStore, ⟨[], 1⟩⟩ 1 "u" true "hello" (by decide)

/-- C2: the draw counts exactly the slips with score strictly above `-3`;
with zero eligible slips it returns nothing; otherwise, for every oracle
offset `x` in `[0, count)` it returns the eligible slip at offset `x` in
ascending-id order, and each eligible slip — the last one included — is
returned for exactly one such offset, hence with probability `1/count`
under the uniform `gen_range(0, count)` draw. -/
theorem draw_uniform (db : OmikujiTable)
    (hsorted : db.rows.Pairwise (fun a b => a.id < b.id)) :
    ((eligibleRows db.rows).length = 0 → ∀ x, get_random_omikuji db x = none) ∧
    (∀ x (hx : x < (eligibleRows db.rows).length),
        get_random_omikuji db x = some ((eligibleRows db.rows).get ⟨x, hx⟩)) ∧
    (∀ o, o ∈ eligibleRows db.rows →
        ∃! x, x < (eligibleRows db.rows).length ∧ get_random_omikuji db x = some o) := by
  have hpair : (eligibleRows db.rows).Pairwise (fun a b => a.id < b.id) :=
    List.Pairwise.filter _ hsorted
  have hnodup : (eligibleRows db.rows).Nodup :=
    hpair.imp (fun hlt heq => by rw [heq] at hlt; exact lt_irrefl _ hlt)
  refine ⟨?_, ?_, ?_⟩
  · intro h0 x
    simp [get_random_omikuji, h0]
  · intro x hx
    have hne : (eligibleRows db.rows).length ≠ 0 := by omega
    simp [get_random_omikuji, hne, List.getElem?_eq_getElem hx]
  · intro o ho
    obtain ⟨i, hi, hgeti⟩ := List.mem_iff_getElem.mp ho
    have hne : (eligibleRows db.rows).length ≠ 0 := by omega
    refine ⟨i, ⟨hi, ?_⟩, ?_⟩
    · simp [get_random_omikuji, hne, List.getElem?_eq_getElem hi, hgeti]
    · rintro y ⟨hy, hdy⟩
      have h1 : (eligibleRows db.rows)[y]? = some o := by
        simpa [get_random_omikuji, hne] using hdy
      have h2 : (eligibleRows db.rows)[i]? = some o := by
        simp [List.getElem?_eq_getElem hi, hgeti]
      exact List.getElem?_inj hy hnodup (h1.trans h2.symm)

def c2Db : OmikujiTable :=
  ⟨[⟨1, Json.null, 0, 0, ""⟩, ⟨2, Json.null, (-5), 0, ""⟩, ⟨3, Json.null, (-2), 0, ""⟩], 4⟩

/-- Witness for C2: a table with eligible ids 1 and 3; the draw at the last
offset returns the slip with id 3. -/
theorem draw_uniform_witness :
    get_random_omikuji c2Db 1 = some ((eligibleRows c2Db.rows).get ⟨1, by decide⟩) := by
  have h := (draw_uniform c2Db (by decide)).2.1 1 (by decide)
  exact h

theorem parseDigitsAcc_none (bs : List Nat) : parseDigitsAcc none bs = none := by
  induction bs with
  | nil => rfl
  | cons b rest ih => simpa [parseDigitsAcc] using ih

theorem parse_u32_head {b : Nat} {rest : List Nat} {N : Nat}
    (h : parse_u32 (b :: rest) = some N) : b = 43 ∨ (48 ≤ b ∧ b ≤ 57) := by
  by_cases hb : b = 43
  · exact Or.inl hb
  · right
    by_cases hdig : 48 ≤ b ∧ b ≤ 57
    · exact hdig
    · exfalso
      simp [parse_u32, hb, parseDigitsAcc, hdig, parseDigitsAcc_none] at h

/-- Uniqueness by id among pairwise id-distinct rows. -/
theorem mem_id_unique {rows : List Omikuji}
    (h : rows.Pairwise (fun a b => a.id ≠ b.id)) {a b : Omikuji}
    (ha : a ∈ rows) (hb : b ∈ rows) (hid : a.id = b.id) : a = b := by
  induction rows with
  | nil => cases ha
  | cons x xs ih =>
    rw [List.pairwise_cons] at h
    cases ha with
    | head =>
      cases hb with
      | head => rfl
      | tail _ hb2 => exact absurd hid (h.1 b hb2)
    | tail _ ha2 =>
      cases hb with
      | head => exact absurd hid.symm (h.1 a ha2)
      | tail _ hb2 => exact ih h.2 ha2 hb2

/-- C5: a well-formed vote `<sign><decimal-id>` on slip id `N`: when no row
has id `N`, the handler reports not-found and mutates nothing; when the row
exists, its score is adjusted by exactly `+1` for `'+'` (byte 43) and `-1`
for `'-'`, and every other row is unchanged. -/
theorem vote_adjusts_exactly (db : OmikujiTable) (sign : Nat) (bs : List Nat) (N : Nat)
    (hsign : sign = 43 ∨ sign = 45)
    (hparse : parse_u32 bs = some N)
    (hids : db.rows.Pairwise (fun a b => a.id ≠ b.id)) :
    (db.rows.find? (fun o => o.id = N) = none →
        vote db (sign :: bs) = (db, .notFound)) ∧
    (∀ o, db.rows.find? (fun o => o.id = N) = some o →
        vote db (sign :: bs) =
          ({ db with rows := db.rows.map (fun r =>
              if r.id = N then
                { r with vote_count := r.vote_count + (if sign == 43 then 1 else -1) }
              else r) },
           .voted N (sign == 43))) := by
  obtain ⟨b, rest, rfl⟩ : ∃ b rest, bs = b :: rest := by
    cases bs with
    | nil => exact absurd hparse (by simp [parse_u32])
    | cons b rest => exact ⟨b, rest, rfl⟩
  have hbound : ¬(128 ≤ b ∧ b < 192) := by
    rcases parse_u32_head hparse with h | h <;> omega
  constructor
  · intro hfind
    simp [vote, hbound, hparse, hfind]
  · intro o hfind
    have hoid : o.id = N := by simpa using List.find?_some hfind
    have homem : o ∈ db.rows := List.mem_of_find?_eq_some hfind
    have hmap : ∀ r ∈ db.rows,
        (if r.id = N then
          { r with vote_count := o.vote_count + (if sign == 43 then 1 else -1) }
         else r) =
        (if r.id = N then
          { r with vote_count := r.vote_count + (if sign == 43 then 1 else -1) }
         else r) := by
      intro r hr
      by_cases hid : r.id = N
      · have hro : r = o := mem_id_unique hids hr homem (by rw [hid, hoid])
        rw [hro]
      · simp [hid]
    simp only [vote, hbound, if_false, hparse, hfind]
    rw [List.map_congr_left hmap]

def c5SlipA : Omikuji := ⟨7, Json.null, 0, 0, ""⟩

def c5SlipB : Omikuji := ⟨9, Json.null, 2, 0, ""⟩

def c5Db : OmikujiTable := ⟨[c5SlipA, c5SlipB], 10⟩

/-- Witness for C5: `+7` upvotes slip 7 only; `-8` on a missing id is
not-found with no mutation. -/
theorem vote_adjusts_exactly_witness :
    vote c5Db (strBytes "+7") =
      ({ c5Db with rows := [{ c5SlipA with vote_count := 1 }, c5SlipB] }, .voted 7 true) ∧
    vote c5Db (strBytes "-8") = (c5Db, .notFound) := by
  constructor
  · have hb : strBytes "+7" = 43 :: [55] := by decide
    have h := (vote_adjusts_exactly c5Db 43 [55] 7 (Or.inl rfl) (by decide)
      (by decide)).2 c5SlipA rfl
    rw [hb, h]
    rfl
  · have hb : strBytes "-8" = 45 :: [56] := by decide
    have h := (vote_adjusts_exactly c5Db 45 [56] 8 (Or.inr rfl) (by decide)
      (by decide)).1 rfl
    rw [hb, h]

--
-- C7: reachability invariant for drafts with an unset class
--

/-- The session-store invariant behind C7 (amended): a stored draft whose
class is still unset has no sections and no photo.  (Its description may
already be set: `update_description` does not consult the class.) -/
def StoreInv (store : Store) : Prop :=
  ∀ k m, store k = some m → m.«class» = none → m.sections = [] ∧ m.photo = none

theorem StoreInv.empty : StoreInv emptyStore := by
  intro k m hk
  simp [emptyStore] at hk

theorem StoreInv.update_ok {store : Store} (h : StoreInv store) (uid : Int)
    {m' : OmikujiMessage}
    (hm' : m'.«class» = none → m'.sections = [] ∧ m'.photo = none) :
    StoreInv (store.update uid m') := by
  intro k m hk hc
  simp only [Store.update] at hk
  split at hk
  · obtain rfl := Option.some.inj hk
    exact hm' hc
  · exact h k m hk hc

theorem StoreInv.delete_ok {store : Store} (h : StoreInv store) (uid : Int) :
    StoreInv (store.delete_user_data uid) := by
  intro k m hk hc
  simp only [Store.delete_user_data] at hk
  split at hk
  · exact Option.noConfusion hk
  · exact h k m hk hc

theorem StoreInv.new_ok {store : Store} (h : StoreInv store) (uid : Int) :
    StoreInv (store.new_user_data uid) := by
  intro k m hk hc
  simp only [Store.new_user_data] at hk
  split at hk
  · obtain rfl := Option.some.inj hk
    exact ⟨rfl, rfl⟩
  · exact h k m hk hc

theorem update_description_inv {store : Store} (h : StoreInv store)
    (uid : Int) (payload : String) :
    StoreInv (update_description store uid payload).1 := by
  unfold update_description Store.get_user_data
  split
  · next m heq =>
    split
    · exact h.update_ok uid (fun hc => h uid m heq hc)
    · exact h
  · exact h

theorem update_section_inv {store : Store} (h : StoreInv store)
    (uid : Int) (payload : String) :
    StoreInv (update_section store uid payload).1 := by
  unfold update_section Store.get_user_data
  split
  · exact h
  · next m heq =>
    split
    · exact h
    · next k t hlast =>
      split_ifs with ht
      · apply h.update_ok
        intro hc
        rw [(h uid m heq hc).1] at hlast
        exact Option.noConfusion hlast
      · exact h

theorem class_inv {store : Store} (h : StoreInv store)
    (uid : Int) (payload : String) :
    StoreInv («class» store uid payload).1 := by
  unfold «class» Store.get_user_data
  split
  · exact h
  · next m heq =>
    split
    · exact h
    · split
      · apply h.update_ok
        intro hc
        exact Option.noConfusion hc
      · exact h

theorem section_inv {store : Store} (h : StoreInv store)
    (uid : Int) (payload : String) :
    StoreInv («section» store uid payload).1 := by
  unfold «section» Store.get_user_data
  split
  · exact h
  · next m heq =>
    split_ifs with hcl hdesc
    · exact h
    · exact h
    · split
      · next k t hlast =>
        split_ifs with ht
        · exact h
        · split
          · apply h.update_ok
            intro hc
            exact absurd hc hcl
          · exact h
      · split
        · apply h.update_ok
          intro hc
          exact absurd hc hcl
        · exact h

theorem save_inv {store : Store} (h : StoreInv store) (uid : Int) (uname : String)
    (db : OmikujiTable) (photo : Option String) (insertOk : Bool) :
    StoreInv (save store uid uname db photo insertOk).store := by
  unfold save Store.get_user_data
  split
  · next m heq =>
    split
    · next k t hlast =>
      split_ifs with ht hio
      · exact (h.update_ok uid (fun hc => by
          rw [(h uid m heq hc).1] at hlast
          exact Option.noConfusion hlast)).delete_ok uid
      · exact h.update_ok uid (fun hc => by
          rw [(h uid m heq hc).1] at hlast
          exact Option.noConfusion hlast)
      · exact h
    · exact h
  · exact h

theorem new_inv {store : Store} (h : StoreInv store) (uid : Int) :
    StoreInv (new store uid).1 := by
  unfold new Store.get_user_data
  split
  · exact h
  · exact h.new_ok uid

theorem message_entry_inv {s : BotState} (h : StoreInv s.store) (uid : Int)
    (uname : String) (insertOk : Bool) (kind : MessageKind) :
    StoreInv (message_entry s uid uname insertOk kind).1.store := by
  cases kind with
  | text data =>
    simp only [message_entry]
    split
    · exact h
    · split_ifs with hc h1 h2 h3 h4 h5
      · exact h
      · split
        · exact h
        · exact h
      · exact h.delete_ok uid
      · exact h
      · split
        · exact h
        · exact h
      · exact h
      · split
        · next store1 r heq =>
          have hinv := update_description_inv h uid data
          rw [heq] at hinv
          exact hinv
        · split
          · next store2 r heq =>
            have hinv := update_section_inv h uid data
            rw [heq] at hinv
            exact hinv
          · exact h
  | photo fileIds =>
    simp only [message_entry]
    split
    · exact h
    · next fid hfid =>
      split
      · next store' db' heq =>
        have hinv := save_inv h uid uname s.db (some fid) insertOk
        rw [heq] at hinv
        exact hinv
      · next store' db' heq =>
        have hinv := save_inv h uid uname s.db (some fid) insertOk
        rw [heq] at hinv
        exact hinv
      · next store' db' heq =>
        have hinv := save_inv h uid uname s.db (some fid) insertOk
        rw [heq] at hinv
        exact hinv
  | other => exact h

theorem callback_dispatch_inv {s : BotState} (h : StoreInv s.store) (uid : Int)
    (uname : String) (insertOk : Bool) (rng : Nat) (command payload : String) :
    StoreInv (callback_dispatch s uid uname insertOk rng command payload).1.store := by
  unfold callback_dispatch
  split_ifs with h1 h2 h3 h4 h5 h6 h7
  · split
    · next store' r heq =>
      have hinv := new_inv h uid
      rw [heq] at hinv
      exact hinv
  · split
    · exact h
    · exact h
  · split
    · next store' r heq =>
      have hinv := class_inv h uid payload
      rw [heq] at hinv
      exact hinv
  · split
    · next store' r heq =>
      have hinv := section_inv h uid payload
      rw [heq] at hinv
      exact hinv
  · exact h
  · split
    · next store' db' heq =>
      have hinv := save_inv h uid uname s.db none insertOk
      rw [heq] at hinv
      exact hinv
    · next store' db' heq =>
      have hinv := save_inv h uid uname s.db none insertOk
      rw [heq] at hinv
      exact hinv
    · next store' db' heq =>
      have hinv := save_inv h uid uname s.db none insertOk
      rw [heq] at hinv
      exact hinv
  · split
    · exact h
    · exact h
    · exact h
    · exact h
  · exact h

theorem callback_entry_inv {s : BotState} (h : StoreInv s.store) (uid : Int)
    (uname : String) (insertOk : Bool) (rng : Nat) (data : Option String) :
    StoreInv (callback_entry s uid uname insertOk rng data).1.store := by
  unfold callback_entry
  split
  · exact h
  · exact callback_dispatch_inv h uid uname insertOk rng _ _

theorem stepEvent_inv {s : BotState} (h : StoreInv s.store) (uid : Int)
    (uname : String) (e : Event) :
    StoreInv (stepEvent uid uname s e).1.store := by
  cases e with
  | message kind insertOk => exact message_entry_inv h uid uname insertOk kind
  | callback data insertOk rng => exact callback_entry_inv h uid uname insertOk rng data

theorem foldl_inv (uid : Int) (uname : String) (events : List Event) :
    ∀ s : BotState, StoreInv s.store →
      StoreInv (events.foldl (fun s e => (stepEvent uid uname s e).1) s).store := by
  induction events with
  | nil => exact fun s hs => hs
  | cons e rest ih =>
    intro s hs
    exact ih _ (stepEvent_inv hs uid uname e)

/-- C7 (amended): in every reachable bot state, a stored draft whose class
is unset has an empty sections list and no photo; its description, however,
is not constrained — `update_description` fills it without consulting the
class (see the counterexample theorem). -/
theorem class_none_only_description (uid : Int) (uname : String)
    (events : List Event) (k : Int) (m : OmikujiMessage)
    (hm : (run uid uname events).store k = some m) (hc : m.«class» = none) :
    m.sections = [] ∧ m.photo = none := by
  exact foldl_inv uid uname events _ StoreInv.empty k m hm hc

/-- Witness for C7's amended statement: in the state reached by "new"
followed by the text "hi", the class-unset draft indeed has no sections and
no photo. -/
theorem class_none_only_description_witness :
    ([] : List (OmikujiSection × String)) = [] ∧ (none : Option String) = none := by
  exact class_none_only_description 1 "u"
    [.callback (some "new") true 0, .message (.text "hi") true] 1
    ⟨none, none, some "hi", []⟩ rfl rfl

end OmikujiBot
